import Mathlib

/-!
# Verification of `directory_server.py` (LocalDirectoryServer)

Shallow embedding of the JSON directory-listing HTTP server in
`src/directory_server.py`.  Pure string manipulation (`os.path.splitext`,
`os.path.basename`, `str.replace`, `str.lower`, `str.lstrip`) is modelled over
`List Char`; the filesystem, the clock and the standard library's MIME
fallback are passed in as explicit environment data.  Machine floats
(`st_mtime`) are modelled as `Int`: the claims only compare timestamps, never
compute with them.

Behaviour inherited from CPython's standard library that is not present in
`src/` (request-path resolution in `SimpleHTTPRequestHandler.translate_path`)
is modelled from the spec, and marked as such in its doc comment.
-/

namespace DirServer

/-! ## Python string primitives (modelled over `List Char`) -/

/-- Last index of a character in a list, or `none`
(Python `str.rfind`, with `none` standing for `-1`). -/
def lastIdxOf (c : Char) : List Char → Option Nat
  | [] => none
  | x :: xs =>
    match lastIdxOf c xs with
    | some i => some (i + 1)
    | none => if x = c then some 0 else none

/-- The extension part of CPython `posixpath.splitext` (`genericpath._splitext`
with `sep = '/'`, no `altsep`, `extsep = '.'`): the suffix from the last dot,
provided that dot lies after the last separator and the leading characters of
the final component, up to that dot, are not all dots. -/
def splitextExtL (p : List Char) : List Char :=
  match lastIdxOf '.' p with
  | none => []
  | some d =>
    -- `fi` is CPython's `filenameIndex = sepIndex + 1` (0 when there is no separator)
    let fi : Nat :=
      match lastIdxOf '/' p with
      | none => 0
      | some i => i + 1
    if fi ≤ d then
      -- the `while filenameIndex < dotIndex` loop: an all-dots prefix means no extension
      if ((p.drop fi).take (d - fi)).all (· = '.') then [] else p.drop d
    else []

/-- `os.path.splitext(p)[1]` on a string. -/
def splitextExt (p : String) : String := ⟨splitextExtL p.toList⟩

/-- Python `str.lower` (ASCII case folding, which is what the server's
extension strings exercise). -/
def pyLowerL (l : List Char) : List Char := l.map Char.toLower

/-- Python `str.lower` on a string. -/
def pyLower (s : String) : String := ⟨pyLowerL s.toList⟩

/-- Python `path.split('?')[0]`: the prefix before the first `?`. -/
def stripQueryL (l : List Char) : List Char := l.takeWhile (· ≠ '?')

/-- `self.path.split('?')[0]` on a string. -/
def stripQuery (s : String) : String := ⟨stripQueryL s.toList⟩

/-- `os.path.basename` on POSIX: everything after the last `/`. -/
def basenameL (l : List Char) : List Char := (l.reverse.takeWhile (· ≠ '/')).reverse

/-- `os.path.basename` on a string. -/
def basename (s : String) : String := ⟨basenameL s.toList⟩

/-- Python `filename.replace('"', '\\"')`: escape every double quote with a
backslash. -/
def escapeQuotesL : List Char → List Char
  | [] => []
  | '"' :: r => '\\' :: '"' :: escapeQuotesL r
  | c :: r => c :: escapeQuotesL r

/-- Quote escaping on a string. -/
def escapeQuotes (s : String) : String := ⟨escapeQuotesL s.toList⟩

/-- Python `extension.lstrip('.')`: drop all leading dots. -/
def lstripDotsL (l : List Char) : List Char := l.dropWhile (· = '.')

/-- Python `os.path.join(display_path, name)` for a non-absolute `name`
(directory entry names never start with `/`): append, inserting `/` unless
the left part is empty or already ends in `/`. -/
def posixJoinL (a b : List Char) : List Char :=
  if a = [] then b
  else if a.getLast? = some '/' then a ++ b
  else a ++ '/' :: b

/-- Python `s.replace("//", "/")`: left-to-right scan replacing each
non-overlapping double slash with a single slash. -/
def replaceDoubleSlashL : List Char → List Char
  | '/' :: '/' :: r => '/' :: replaceDoubleSlashL r
  | c :: r => c :: replaceDoubleSlashL r
  | [] => []

/-! ## Data model -/

/-- The fields of an `os.stat_result` the server reads. -/
structure StatInfo where
  st_mtime : Int
  st_size : Int
  deriving DecidableEq

/-- What the filesystem reports about one child of the listed directory:
its name (from `os.listdir`, so it contains no `/`), the result of `os.stat`
(`none` models an `OSError`), the result of `os.path.isdir` (which follows
symbolic links), and the result of `os.path.islink`. -/
structure RawEntry where
  name : String
  stat : Option StatInfo
  resolvesToDir : Bool
  isLink : Bool
  deriving DecidableEq

/-- One element of the `files` array in the JSON listing. -/
structure FileEntry where
  name : String
  extension : Option String
  type : String
  size_bytes : Int
  modified_timestamp : Int
  modified_iso : Option String
  path : String
  deriving DecidableEq

/-- The JSON document built by `list_directory`. -/
structure DirListing where
  directory : String
  total_items : Nat
  generated_at : String
  files : List FileEntry
  deriving DecidableEq

/-- Environment for the effects the handler performs: the timestamp renderer
(`datetime.fromtimestamp(...).isoformat()`), the clock
(`datetime.now().isoformat()`), URL decoding (`urllib.parse.unquote`) and the
standard library's MIME fallback (`SimpleHTTPRequestHandler.guess_type`).
No claim depends on the concrete behaviour of these functions. -/
structure Env where
  isoOf : Int → String
  now : String
  unquote : String → String
  fallbackMime : String → String

/-! ## Metadata extractor: the loop body of `list_directory` (lines 178-208) -/

/-- `extension = os.path.splitext(name)[1]; extension.lstrip('.').lower() if
extension else None` (lines 197-198). -/
def extField (name : String) : Option String :=
  let e := splitextExtL name.toList
  if e = [] then none else some ⟨pyLowerL (lstripDotsL e)⟩

/-- Lines 191-195: `file_type = "file"; if os.path.isdir(fullname):
"directory" elif os.path.islink(fullname): "symlink"`.  Note that
`os.path.isdir` follows symbolic links. -/
def fileTypeOf (resolvesToDir isLink : Bool) : String :=
  if resolvesToDir then "directory" else if isLink then "symlink" else "file"

/-- The dictionary appended for one entry (lines 181-208): stat fields, or
zeros/`None` when `os.stat` raised `OSError`; type; extension; and the
`path` field `os.path.join(display_path, name).replace("//", "/")`. -/
def toFileEntry (isoOf : Int → String) (displayPath : String) (r : RawEntry) : FileEntry :=
  let ts : Int := match r.stat with | some s => s.st_mtime | none => 0
  { name := r.name
    extension := extField r.name
    type := fileTypeOf r.resolvesToDir r.isLink
    size_bytes := match r.stat with | some s => s.st_size | none => 0
    modified_timestamp := ts
    modified_iso := match r.stat with | some _ => some (isoOf ts) | none => none
    path := ⟨replaceDoubleSlashL (posixJoinL displayPath.toList r.name.toList)⟩ }

/-! ## Listing builder: `list_directory` (lines 167-231) -/

/-- The comparison `list_directory` sorts by: descending `modified_timestamp`
(`a` may precede `b` iff `b`'s timestamp is at most `a`'s). -/
def tsDescLE (a b : FileEntry) : Bool := decide (b.modified_timestamp ≤ a.modified_timestamp)

/-- `files.sort(key=lambda x: x["modified_timestamp"], reverse=True)`
(line 210).  Python's sort is stable and, with `reverse=True`, keeps
equal-key records in their original order; `mergeSort` with the descending
total preorder has exactly that contract. -/
def pySortDesc (l : List FileEntry) : List FileEntry := l.mergeSort tsDescLE

/-- Result of `list_directory`: either `send_error(status, msg)` followed by
`return None`, or the JSON document returned with status 200. -/
inductive ListResult where
  | err (status : Nat) (msg : String)
  | ok (listing : DirListing)
  deriving DecidableEq

/-- `list_directory` (lines 167-231).  `listing` is the outcome of
`os.listdir(path)`: `none` models an `OSError`. -/
def list_directory (env : Env) (selfPath : String) (listing : Option (List RawEntry)) :
    ListResult :=
  match listing with
  | none => .err 404 "No permission to list directory"
  | some file_list =>
    let display_path := env.unquote selfPath
    let files := pySortDesc (file_list.map (toFileEntry env.isoOf display_path))
    .ok { directory := display_path
          total_items := files.length
          generated_at := env.now
          files := files }

/-! ## Content policy: `guess_type` (lines 141-165) and the forced-download
part of `end_headers` (lines 120-132) -/

/-- The `mime_types` dictionary of `guess_type` (lines 149-159). -/
def mime_types : List (String × String) :=
  [(".ppsx", "application/vnd.openxmlformats-officedocument.presentationml.slideshow"),
   (".pptx", "application/vnd.openxmlformats-officedocument.presentationml.presentation"),
   (".ppt", "application/vnd.ms-powerpoint"),
   (".pps", "application/vnd.ms-powerpoint"),
   (".pdf", "application/pdf"),
   (".docx", "application/vnd.openxmlformats-officedocument.wordprocessingml.document"),
   (".doc", "application/msword"),
   (".xlsx", "application/vnd.openxmlformats-officedocument.spreadsheetml.sheet"),
   (".xls", "application/vnd.ms-excel")]

/-- `guess_type` (lines 141-165): explicit MIME type for the lowercased
extension of the translated path, else the superclass fallback. -/
def guess_type (fallbackMime : String → String) (path : String) : String :=
  let ext := pyLower (splitextExt path)
  match mime_types.lookup ext with
  | some m => m
  | none => fallbackMime path

/-- `force_download_extensions` (line 126). -/
def force_download_extensions : List String := [".ppsx", ".pptx", ".ppt", ".pps"]

/-- The forced-download decision of `end_headers` (lines 120-132): purely a
function of the request URL `self.path` — strip the query, take the
lowercased `splitext` extension, and for the PowerPoint set emit
`attachment; filename="<basename, quotes escaped>"`. -/
def dispositionHeader (selfPath : String) : Option String :=
  let path := stripQuery selfPath
  let ext := pyLower (splitextExt path)
  if force_download_extensions.contains ext then
    some ("attachment; filename=\"" ++ escapeQuotes (basename path) ++ "\"")
  else none

/-- The headers `end_headers` (lines 113-134) appends to every response:
the four CORS headers, then `Content-Disposition` when the URL calls for a
forced download. -/
def end_headers_added (selfPath : String) : List (String × String) :=
  [("Access-Control-Allow-Origin", "*"),
   ("Access-Control-Allow-Methods", "GET, OPTIONS"),
   ("Access-Control-Allow-Headers", "Range"),
   ("Access-Control-Max-Age", "86400")] ++
  (match dispositionHeader selfPath with
   | some v => [("Content-Disposition", v)]
   | none => [])

/-! ## Request dispatcher -/

/-- A node of the served filesystem, addressed by its path below the root:
a directory (whose `os.listdir` outcome is `none` on `OSError`) or a regular
file with its byte content. -/
inductive FsNode where
  | dir (listing : Option (List RawEntry))
  | file (content : String)

/-- The filesystem below the root directory. -/
def Fs := List String → Option FsNode

/-- An HTTP response.  `listingBody` carries the JSON directory listing when
one is produced, `fileBody` the streamed file bytes; the HTML explanation page
of `send_error` is not modelled (no claim concerns it). -/
structure Response where
  status : Nat
  headers : List (String × String)
  listingBody : Option DirListing
  fileBody : Option String

/-- `send_error(status, ...)`: an error response with no listing and no file
content; `send_error` also runs `end_headers`, so the CORS/disposition
headers are appended. -/
def mkError (status : Nat) (selfPath : String) : Response :=
  { status := status
    headers := [("Content-Type", "text/html;charset=utf-8")] ++ end_headers_added selfPath
    listingBody := none
    fileBody := none }

/-- Modelled from the spec: request-path resolution is inherited from
`SimpleHTTPRequestHandler.translate_path`, which is not in `src/`.  Per the
spec, resolution "must reject traversal above the root (reject `..` segments
that would escape it), signaling `PathForbidden`": walk the decoded path
components keeping a stack of directories below the root; a `..` with an
empty stack would escape the root and is rejected. -/
def resolveSegments (acc : List String) : List String → Option (List String)
  | [] => some acc
  | s :: rest =>
    if s = "." then resolveSegments acc rest
    else if s = ".." then
      match acc.reverse with
      | [] => none
      | _ :: dropped => resolveSegments dropped.reverse rest
    else resolveSegments (acc ++ [s]) rest

/-- Python `path.split('/')` over a character list. -/
def splitOnSlashL (l : List Char) : List (List Char) :=
  l.foldr
    (fun c acc =>
      match acc with
      | [] => if c = '/' then [[], []] else [[c]]
      | cur :: rest => if c = '/' then [] :: cur :: rest else (c :: cur) :: rest)
    [[]]

/-- The slash-separated components of the request path: strip the query,
URL-decode (`translate_path` unquotes once), split on `/`, drop empty
components. -/
def pathSegments (env : Env) (selfPath : String) : List String :=
  ((splitOnSlashL (env.unquote (stripQuery selfPath)).toList).map
    (fun l => (⟨l⟩ : String))).filter (· ≠ "")

/-- The filesystem path handed to `guess_type` for a file target. -/
def fsPathOf (segs : List String) : String := "/" ++ String.intercalate "/" segs

/-- Per-request dispatch: `do_OPTIONS` (lines 136-139) answers every OPTIONS
request with a bare 200; a GET resolves the path (rejected traversal → 404,
modelled from the spec), looks up the target (missing → 404, per the spec's
"a request for a nonexistent path yields HTTP 404"), runs `list_directory`
for a directory, and streams a file with its `guess_type` MIME type.  Every
branch sends its headers through `end_headers`. -/
def handleRequest (env : Env) (fs : Fs) (method : String) (selfPath : String) : Response :=
  if method = "OPTIONS" then
    { status := 200, headers := end_headers_added selfPath
      listingBody := none, fileBody := none }
  else
    match resolveSegments [] (pathSegments env selfPath) with
    | none => mkError 404 selfPath
    | some p =>
      match fs p with
      | none => mkError 404 selfPath
      | some (.dir listing) =>
        match list_directory env selfPath listing with
        | .err s _ => mkError s selfPath
        | .ok d =>
          { status := 200
            headers := [("Content-Type", "application/json; charset=utf-8")] ++
              end_headers_added selfPath
            listingBody := some d
            fileBody := none }
      | some (.file content) =>
        { status := 200
          headers := [("Content-Type", guess_type env.fallbackMime (fsPathOf p))] ++
            end_headers_added selfPath
          listingBody := none
          fileBody := some content }

/-! ## Startup: `run_server` (lines 239-284) -/

/-- Observable startup events of `run_server`, in program order. -/
inductive StartEvent where
  | driveGateExit     -- `wait_for_google_drive` exhausted → `sys.exit(1)`
  | bindListener      -- `ThreadedHTTPServer(server_address, DirectoryHandler)`
                      -- binds and activates the socket in its constructor
  | tlsLoadOk         -- `context.load_cert_chain` succeeded, socket wrapped
  | tlsLoadError      -- `load_cert_chain` raised; `logger.error(...)`
  | exitNonZero       -- `sys.exit(1)`
  | serveHTTP         -- `serve_forever` over plaintext
  | serveHTTPS        -- `serve_forever` over TLS
  deriving DecidableEq

/-- The event trace of `run_server` (lines 239-284).  The constructor call
`ThreadedHTTPServer(server_address, DirectoryHandler)` at line 248 binds the
listener socket (`socketserver.TCPServer.__init__` calls `server_bind` and
`server_activate`); only afterwards does the TLS block at lines 251-273 run,
and a `load_cert_chain` failure logs an error and calls `sys.exit(1)`. -/
def run_server (skipDriveCheck driveOk certProvided tlsLoadSucceeds : Bool) :
    List StartEvent :=
  if ¬skipDriveCheck ∧ ¬driveOk then [.driveGateExit, .exitNonZero]
  else
    [.bindListener] ++
      (if certProvided then
        if tlsLoadSucceeds then [.tlsLoadOk, .serveHTTPS]
        else [.tlsLoadError, .exitNonZero]
      else [.serveHTTP])

/-! ## Auxiliary definitions used to state the claims -/

/-- The `files` array of a listing outcome (empty for an error outcome). -/
def filesOf : ListResult → List FileEntry
  | .err _ _ => []
  | .ok d => d.files

/-- `l` ends with the suffix `suf`. -/
def endsWithL (l suf : List Char) : Bool := decide (l.reverse.take suf.length = suf.reverse)

/-- Claim-side reading of C10's trigger: after removing the query suffix,
the lowercased URL path textually ends in one of the four PowerPoint
extensions. -/
def endsInForcedExt (selfPath : String) : Bool :=
  force_download_extensions.any fun e =>
    endsWithL (pyLowerL (stripQueryL selfPath.toList)) e.toList

/-- Claim-side reading of C5's trigger: walking the path components with a
running depth below the root, some `..` occurs at depth zero, i.e. the path
would resolve outside the root directory. -/
def escapesRootAux (d : Nat) : List String → Bool
  | [] => false
  | s :: rest =>
    if s = "." then escapesRootAux d rest
    else if s = ".." then
      if d = 0 then true else escapesRootAux (d - 1) rest
    else escapesRootAux (d + 1) rest

/-- C5's trigger, started at the root. -/
def escapesRoot (segs : List String) : Bool := escapesRootAux 0 segs

/-- Claim-side reading of C9's "the name has an extension": some dot follows
at least one non-dot character (equivalently, a dot survives stripping the
leading dots).  This matches `os.path.splitext`'s documented rule that
leading periods of the final component do not start an extension. -/
def hasExtensionB (l : List Char) : Bool := (l.dropWhile (· = '.')).any (· = '.')

/-- The text after the last dot of a name (claim C9's words): the longest
dot-free suffix. -/
def afterLastDotL (l : List Char) : List Char := (l.reverse.takeWhile (· ≠ '.')).reverse

/-- Claim-side reading of C6's "exits ... before binding the listener
socket": in the startup trace, an exit occurs with no earlier bind. -/
def exitsBeforeBind : List StartEvent → Bool
  | [] => false
  | .bindListener :: _ => false
  | .exitNonZero :: _ => true
  | _ :: rest => exitsBeforeBind rest

/-! ## Concrete fixtures for witnesses and counterexamples -/

/-- A concrete environment: trivial clock and timestamp renderer, identity
URL decoding, constant MIME fallback. -/
def env0 : Env :=
  { isoOf := fun _ => "1970-01-01T00:00:00"
    now := "2026-10-12T00:00:00"
    unquote := id
    fallbackMime := fun _ => "application/octet-stream" }

/-- A directory entry that is a symbolic link whose target is a directory. -/
def symlinkToDir : RawEntry :=
  { name := "link", stat := some ⟨7, 5⟩, resolvesToDir := true, isLink := true }

/-- A directory entry whose `os.stat` call failed (e.g. race-deleted). -/
def staleEntry : RawEntry :=
  { name := "gone.txt", stat := none, resolvesToDir := false, isLink := false }

/-- A healthy sibling of `staleEntry`. -/
def freshEntry : RawEntry :=
  { name := "kept.pdf", stat := some ⟨100, 42⟩, resolvesToDir := false, isLink := false }

/-- A root filesystem whose only node is an unreadable directory at `/`. -/
def fsUnlistable : Fs := fun p => if p = [] then some (.dir none) else none

/-- A root filesystem with a listable root containing `staleEntry` and
`freshEntry`. -/
def fsWithStale : Fs := fun p => if p = [] then some (.dir (some [staleEntry, freshEntry])) else none

/-- An empty filesystem. -/
def fsEmpty : Fs := fun _ => none

/-! ## Helper lemmas -/

/-- `send_error` headers are the fixed content type followed by what
`end_headers` appends. -/
theorem mkError_headers (s : Nat) (sp : String) :
    (mkError s sp).headers = [("Content-Type", "text/html;charset=utf-8")] ++ end_headers_added sp :=
  rfl

/-- Every branch of the dispatcher sends its headers through `end_headers`:
the header list always ends with the `end_headers` block. -/
theorem handleRequest_headers (env : Env) (fs : Fs) (m sp : String) :
    ∃ pre, (handleRequest env fs m sp).headers = pre ++ end_headers_added sp := by
  unfold handleRequest
  split
  · exact ⟨[], rfl⟩
  · split
    · exact ⟨[("Content-Type", "text/html;charset=utf-8")], rfl⟩
    · split
      · exact ⟨[("Content-Type", "text/html;charset=utf-8")], rfl⟩
      · split
        · exact ⟨[("Content-Type", "text/html;charset=utf-8")], rfl⟩
        · exact ⟨[("Content-Type", "application/json; charset=utf-8")], rfl⟩
      · exact ⟨[("Content-Type", guess_type env.fallbackMime (fsPathOf _))], rfl⟩

/-! ## Claim theorems -/

/-- C8: every response the dispatcher produces — any method, any path, any
status, errors included — carries all four CORS headers
`Access-Control-Allow-Origin: *`, `Access-Control-Allow-Methods: GET,
OPTIONS`, `Access-Control-Allow-Headers: Range` and
`Access-Control-Max-Age: 86400`. -/
theorem C8_cors_on_every_response (env : Env) (fs : Fs) (method selfPath : String) :
    ("Access-Control-Allow-Origin", "*") ∈ (handleRequest env fs method selfPath).headers ∧
    ("Access-Control-Allow-Methods", "GET, OPTIONS") ∈ (handleRequest env fs method selfPath).headers ∧
    ("Access-Control-Allow-Headers", "Range") ∈ (handleRequest env fs method selfPath).headers ∧
    ("Access-Control-Max-Age", "86400") ∈ (handleRequest env fs method selfPath).headers := by
  obtain ⟨pre, h⟩ := handleRequest_headers env fs method selfPath
  rw [h]
  refine ⟨?_, ?_, ?_, ?_⟩ <;>
    · apply List.mem_append_right
      simp [end_headers_added]

/-- C4: when the target directory cannot be enumerated (`os.listdir` raises
`OSError`: permission denied, not a directory, race-deleted), the listing
operation answers HTTP 404 and produces no listing body. -/
theorem C4_unlistable_dir_404 (env : Env) (fs : Fs) (selfPath : String) (p : List String)
    (hres : resolveSegments [] (pathSegments env selfPath) = some p)
    (hfs : fs p = some (.dir none)) :
    list_directory env selfPath none = .err 404 "No permission to list directory" ∧
    (handleRequest env fs "GET" selfPath).status = 404 ∧
    (handleRequest env fs "GET" selfPath).listingBody = none ∧
    (handleRequest env fs "GET" selfPath).fileBody = none := by
  refine ⟨rfl, ?_⟩
  simp [handleRequest, hres, hfs, list_directory, mkError]

/-- C4 witness: a root directory whose enumeration fails yields a bodyless
404. -/
theorem C4_unlistable_dir_404_witness :
    (resolveSegments [] (pathSegments env0 "/") = some []) ∧
    (fsUnlistable [] = some (.dir none)) ∧
    (list_directory env0 "/" none = .err 404 "No permission to list directory" ∧
      (handleRequest env0 fsUnlistable "GET" "/").status = 404 ∧
      (handleRequest env0 fsUnlistable "GET" "/").listingBody = none ∧
      (handleRequest env0 fsUnlistable "GET" "/").fileBody = none) :=
  ⟨by decide, rfl, C4_unlistable_dir_404 env0 fsUnlistable "/" [] (by decide) rfl⟩

/-- C2 counterexample: an enumerated entry that is a symbolic link to a
directory is classified as `"directory"`, not `"symlink"` — `os.path.isdir`
follows symbolic links and line 192 tests it first, so symlink
classification does not take precedence. -/
theorem C2_symlink_counterexample :
    symlinkToDir.isLink = true ∧
    (filesOf (list_directory env0 "/" (some [symlinkToDir]))).map (fun e => e.type) =
      ["directory"] := by
  refine ⟨rfl, ?_⟩
  simp [list_directory, filesOf, pySortDesc, toFileEntry, fileTypeOf, symlinkToDir]

/-- C2 amended: an entry's `type` is `"symlink"` exactly when it is a
symbolic link that does not resolve to a directory; a symbolic link whose
target is a directory is classified as `"directory"`. -/
theorem C2_symlink_amended (isoOf : Int → String) (dp : String) (r : RawEntry) :
    (toFileEntry isoOf dp r).type = "symlink" ↔
      r.isLink = true ∧ r.resolvesToDir = false := by
  rcases r with ⟨n, st, rd, il⟩
  cases rd <;> cases il <;> simp [toFileEntry, fileTypeOf]

/-- C6 counterexample: with a certificate configured and failing to load,
`run_server` does exit non-zero — but the listener socket was already bound
by the `ThreadedHTTPServer` constructor, so the exit does not happen "before
binding the listener socket" as claimed. -/
theorem C6_tls_counterexample :
    run_server true true true false =
      [StartEvent.bindListener, StartEvent.tlsLoadError, StartEvent.exitNonZero] ∧
    StartEvent.exitNonZero ∈ run_server true true true false ∧
    exitsBeforeBind (run_server true true true false) = false := by decide

/-- C6 amended: when a configured TLS certificate/key pair fails to load,
the process logs an error and exits with a non-zero status after binding the
listener but before serving any request, and never falls back to serving
plaintext. -/
theorem C6_tls_amended (skipDriveCheck driveOk : Bool)
    (hgate : skipDriveCheck = true ∨ driveOk = true) :
    run_server skipDriveCheck driveOk true false =
      [StartEvent.bindListener, StartEvent.tlsLoadError, StartEvent.exitNonZero] ∧
    StartEvent.serveHTTP ∉ run_server skipDriveCheck driveOk true false ∧
    StartEvent.serveHTTPS ∉ run_server skipDriveCheck driveOk true false ∧
    StartEvent.tlsLoadOk ∉ run_server skipDriveCheck driveOk true false := by
  cases skipDriveCheck <;> cases driveOk <;> revert hgate <;> decide

/-- C6 amended witness: startup with the drive gate skipped and a bad
certificate binds, logs the TLS error, exits non-zero and never serves. -/
theorem C6_tls_amended_witness :
    (true = true ∨ true = true) ∧
    (run_server true true true false =
        [StartEvent.bindListener, StartEvent.tlsLoadError, StartEvent.exitNonZero] ∧
      StartEvent.serveHTTP ∉ run_server true true true false ∧
      StartEvent.serveHTTPS ∉ run_server true true true false ∧
      StartEvent.tlsLoadOk ∉ run_server true true true false) :=
  ⟨Or.inl rfl, C6_tls_amended true true (Or.inl rfl)⟩

/-- The descending-timestamp comparison is transitive. -/
theorem tsDescLE_trans (a b c : FileEntry) :
    tsDescLE a b → tsDescLE b c → tsDescLE a c := by
  simp only [tsDescLE, decide_eq_true_eq]
  omega

/-- The descending-timestamp comparison is total. -/
theorem tsDescLE_total (a b : FileEntry) : tsDescLE a b || tsDescLE b a := by
  simp only [tsDescLE, Bool.or_eq_true, decide_eq_true_eq]
  omega

/-- Stability of the listing sort, in filter form: the records carrying any
one fixed timestamp appear in the sorted output exactly as they appeared in
the input. -/
theorem pySortDesc_filter_ts (l : List FileEntry) (t : Int) :
    (pySortDesc l).filter (fun e => decide (e.modified_timestamp = t)) =
      l.filter (fun e => decide (e.modified_timestamp = t)) := by
  set p : FileEntry → Bool := fun e => decide (e.modified_timestamp = t) with hp
  have hpair : (l.filter p).Pairwise fun a b => tsDescLE a b = true := by
    apply List.pairwise_of_forall_mem_list
    intro a ha b hb
    have ha' := (List.mem_filter.mp ha).2
    have hb' := (List.mem_filter.mp hb).2
    simp only [hp, decide_eq_true_eq] at ha' hb'
    simp [tsDescLE, ha', hb']
  have hsub : List.Sublist (l.filter p) (pySortDesc l) :=
    List.sublist_mergeSort tsDescLE_trans tsDescLE_total hpair (List.filter_sublist l)
  have hperm : List.Perm ((pySortDesc l).filter p) (l.filter p) :=
    (List.mergeSort_perm l tsDescLE).filter p
  have hidem : (l.filter p).filter p = l.filter p := by
    rw [List.filter_filter]
    simp
  have hsub2 : List.Sublist (l.filter p) ((pySortDesc l).filter p) := by
    have h := hsub.filter p
    rwa [hidem] at h
  exact (hsub2.eq_of_length hperm.length_eq.symm).symm

/-- C1: in every directory listing response, `files` is sorted by
`modified_timestamp` in descending order (every earlier entry's timestamp is
at least every later one's), and entries with equal timestamps keep their
original enumeration order (the sort is stable). -/
theorem C1_files_sorted_desc_stable (env : Env) (selfPath : String)
    (fl : List RawEntry) (d : DirListing)
    (h : list_directory env selfPath (some fl) = .ok d) :
    d.files.Pairwise (fun a b => b.modified_timestamp ≤ a.modified_timestamp) ∧
    ∀ t : Int,
      d.files.filter (fun e => decide (e.modified_timestamp = t)) =
        (fl.map (toFileEntry env.isoOf (env.unquote selfPath))).filter
          (fun e => decide (e.modified_timestamp = t)) := by
  have h' : ListResult.ok
      { directory := env.unquote selfPath
        total_items := (pySortDesc (fl.map (toFileEntry env.isoOf (env.unquote selfPath)))).length
        generated_at := env.now
        files := pySortDesc (fl.map (toFileEntry env.isoOf (env.unquote selfPath))) } =
      ListResult.ok d := h
  cases h'
  constructor
  · have hs := List.sorted_mergeSort tsDescLE_trans tsDescLE_total
      (fl.map (toFileEntry env.isoOf (env.unquote selfPath)))
    exact hs.imp fun hab => by
      simpa [tsDescLE, decide_eq_true_eq] using hab
  · intro t
    exact pySortDesc_filter_ts _ t

/-- C1 witness: a one-entry directory produces a listing whose sortedness
and stability the theorem certifies. -/
theorem C1_files_sorted_desc_stable_witness :
    (list_directory env0 "/" (some [freshEntry]) =
      ListResult.ok
        { directory := "/"
          total_items := 1
          generated_at := "2026-10-12T00:00:00"
          files := [toFileEntry env0.isoOf "/" freshEntry] }) ∧
    (([toFileEntry env0.isoOf "/" freshEntry] :
          List FileEntry).Pairwise
        (fun a b => b.modified_timestamp ≤ a.modified_timestamp) ∧
      ∀ t : Int,
        ([toFileEntry env0.isoOf "/" freshEntry] : List FileEntry).filter
            (fun e => decide (e.modified_timestamp = t)) =
          ([freshEntry].map (toFileEntry env0.isoOf (env0.unquote "/"))).filter
            (fun e => decide (e.modified_timestamp = t))) := by
  have h : list_directory env0 "/" (some [freshEntry]) =
      ListResult.ok
        { directory := "/"
          total_items := 1
          generated_at := "2026-10-12T00:00:00"
          files := [toFileEntry env0.isoOf "/" freshEntry] } := by
    simp [list_directory, pySortDesc, env0]
  exact ⟨h, C1_files_sorted_desc_stable env0 "/" [freshEntry] _ h⟩

/-- C3: a per-entry stat failure degrades that entry's fields but aborts
nothing: the listing still answers 200 and contains the entry with
`size_bytes = 0`, `modified_timestamp = 0`, `modified_iso = null`, its name
and extension reported, and type defaulting to `"file"` when neither the
directory nor the symlink probe identifies it. -/
theorem C3_stat_failure_degraded (env : Env) (fs : Fs) (selfPath : String) (p : List String)
    (fl : List RawEntry) (r : RawEntry)
    (hres : resolveSegments [] (pathSegments env selfPath) = some p)
    (hfs : fs p = some (.dir (some fl)))
    (hr : r ∈ fl) (hstat : r.stat = none) :
    (handleRequest env fs "GET" selfPath).status = 200 ∧
    ∃ d, (handleRequest env fs "GET" selfPath).listingBody = some d ∧
      ∃ e, e ∈ d.files ∧
        e.name = r.name ∧
        e.size_bytes = 0 ∧
        e.modified_timestamp = 0 ∧
        e.modified_iso = none ∧
        e.extension = extField r.name ∧
        (r.resolvesToDir = false → r.isLink = false → e.type = "file") := by
  have hne : ("GET" : String) ≠ "OPTIONS" := by decide
  simp only [handleRequest, if_neg hne, hres, hfs, list_directory]
  refine ⟨trivial, _, rfl, toFileEntry env.isoOf (env.unquote selfPath) r, ?_, rfl, ?_, ?_, ?_, rfl, ?_⟩
  · simp only [pySortDesc, List.mem_mergeSort]
    exact List.mem_map_of_mem _ hr
  · simp [toFileEntry, hstat]
  · simp [toFileEntry, hstat]
  · simp [toFileEntry, hstat]
  · intro h1 h2
    simp [toFileEntry, fileTypeOf, h1, h2]

/-- C3 witness: a race-deleted entry next to a healthy sibling still shows
up, zeroed, in a 200 listing. -/
theorem C3_stat_failure_degraded_witness :
    (resolveSegments [] (pathSegments env0 "/") = some []) ∧
    (fsWithStale [] = some (.dir (some [staleEntry, freshEntry]))) ∧
    (staleEntry ∈ [staleEntry, freshEntry]) ∧
    (staleEntry.stat = none) ∧
    ((handleRequest env0 fsWithStale "GET" "/").status = 200 ∧
      ∃ d, (handleRequest env0 fsWithStale "GET" "/").listingBody = some d ∧
        ∃ e, e ∈ d.files ∧
          e.name = staleEntry.name ∧
          e.size_bytes = 0 ∧
          e.modified_timestamp = 0 ∧
          e.modified_iso = none ∧
          e.extension = extField staleEntry.name ∧
          (staleEntry.resolvesToDir = false → staleEntry.isLink = false → e.type = "file")) :=
  ⟨by decide, rfl, by decide, rfl,
    C3_stat_failure_degraded env0 fsWithStale "/" [] [staleEntry, freshEntry] staleEntry
      (by decide) rfl (by decide) rfl⟩

/-- Rejecting a `..` that would climb above the root is the same as the
running-depth test going below zero. -/
theorem resolve_none_iff_escapes (segs : List String) :
    ∀ acc : List String,
      resolveSegments acc segs = none ↔ escapesRootAux acc.length segs = true := by
  induction segs with
  | nil => intro acc; simp [resolveSegments, escapesRootAux]
  | cons s rest ih =>
    intro acc
    by_cases h1 : s = "."
    · subst h1
      simp only [resolveSegments, escapesRootAux, if_pos rfl]
      exact ih acc
    · by_cases h2 : s = ".."
      · subst h2
        have hd : (".." : String) ≠ "." := by decide
        simp only [resolveSegments, escapesRootAux, if_neg hd, if_pos rfl]
        cases hacc : acc.reverse with
        | nil =>
          have : acc = [] := by
            have := congrArg List.reverse hacc
            simpa using this
          subst this
          simp
        | cons x dropped =>
          have hlen : acc.length = dropped.length + 1 := by
            have := congrArg List.length hacc
            simpa using this
          have hne0 : acc.length ≠ 0 := by omega
          rw [if_neg hne0]
          have : dropped.reverse.length = acc.length - 1 := by simp [hlen]
          rw [← this] at *
          simpa using ih dropped.reverse
      · simp only [resolveSegments, escapesRootAux, if_neg h1, if_neg h2]
        have := ih (acc ++ [s])
        simpa using this

/-- C5: a request whose path segments would traverse above the configured
root gets a 404 with neither a listing nor file content.  (Path resolution is
inherited standard-library behaviour modelled from the spec in
`resolveSegments`.) -/
theorem C5_traversal_404 (env : Env) (fs : Fs) (selfPath : String)
    (h : escapesRoot (pathSegments env selfPath) = true) :
    (handleRequest env fs "GET" selfPath).status = 404 ∧
    (handleRequest env fs "GET" selfPath).listingBody = none ∧
    (handleRequest env fs "GET" selfPath).fileBody = none := by
  have hres : resolveSegments [] (pathSegments env selfPath) = none := by
    exact (resolve_none_iff_escapes (pathSegments env selfPath) []).mpr h
  simp [handleRequest, hres, mkError]

/-- C5 witness: `GET /../etc/passwd` escapes the root and is answered by a
bodyless 404. -/
theorem C5_traversal_404_witness :
    (escapesRoot (pathSegments env0 "/../etc/passwd") = true) ∧
    ((handleRequest env0 fsEmpty "GET" "/../etc/passwd").status = 404 ∧
      (handleRequest env0 fsEmpty "GET" "/../etc/passwd").listingBody = none ∧
      (handleRequest env0 fsEmpty "GET" "/../etc/passwd").fileBody = none) :=
  ⟨by decide, C5_traversal_404 env0 fsEmpty "/../etc/passwd" (by decide)⟩

/-- C7: a request whose extension is one of `.ppsx/.pptx/.ppt/.pps` gets
that extension's explicit MIME type and a `Content-Disposition: attachment`
header naming the file with embedded double quotes escaped; a `.pdf` request
gets `application/pdf` and no forced disposition. -/
theorem C7_powerpoint_mime_disposition (fb : String → String) (urlPath fsPath ext : String)
    (hu : pyLower (splitextExt (stripQuery urlPath)) = ext)
    (hf : pyLower (splitextExt fsPath) = ext) :
    (ext ∈ force_download_extensions →
      (∃ m, mime_types.lookup ext = some m ∧ guess_type fb fsPath = m) ∧
      dispositionHeader urlPath =
        some ("attachment; filename=\"" ++ escapeQuotes (basename (stripQuery urlPath)) ++ "\"")) ∧
    (ext = ".pdf" →
      guess_type fb fsPath = "application/pdf" ∧ dispositionHeader urlPath = none) := by
  constructor
  · intro hmem
    have hc : force_download_extensions.contains ext = true := by
      simp [List.contains, hmem]
    constructor
    · fin_cases hmem <;>
        exact ⟨_, rfl, by rw [guess_type, hf]; rfl⟩
    · rw [dispositionHeader, hu, if_pos hc]
  · intro hpdf
    subst hpdf
    constructor
    · rw [guess_type, hf]
      rfl
    · rw [dispositionHeader, hu]
      rfl

/-- C7 witness: `/talk.pptx` forces a download with the PowerPoint MIME
type; `/doc.pdf` is served inline as `application/pdf`. -/
theorem C7_powerpoint_mime_disposition_witness :
    (pyLower (splitextExt (stripQuery "/talk.pptx")) = ".pptx") ∧
    (pyLower (splitextExt "/srv/talk.pptx") = ".pptx") ∧
    (((".pptx" : String) ∈ force_download_extensions →
        (∃ m, mime_types.lookup ".pptx" = some m ∧
          guess_type (fun _ => "application/octet-stream") "/srv/talk.pptx" = m) ∧
        dispositionHeader "/talk.pptx" =
          some ("attachment; filename=\"" ++
            escapeQuotes (basename (stripQuery "/talk.pptx")) ++ "\"")) ∧
      ((".pptx" : String) = ".pdf" →
        guess_type (fun _ => "application/octet-stream") "/srv/talk.pptx" = "application/pdf" ∧
        dispositionHeader "/talk.pptx" = none)) :=
  ⟨by decide, by decide,
    C7_powerpoint_mime_disposition (fun _ => "application/octet-stream")
      "/talk.pptx" "/srv/talk.pptx" ".pptx" (by decide) (by decide)⟩

/-- `lastIdxOf` finds no occurrence exactly when the character is absent. -/
theorem lastIdxOf_eq_none_iff (c : Char) (l : List Char) :
    lastIdxOf c l = none ↔ c ∉ l := by
  induction l with
  | nil => simp [lastIdxOf]
  | cons x xs ih =>
    cases h : lastIdxOf c xs with
    | some i =>
      have hmem : c ∈ xs := by
        by_contra hc
        rw [ih.mpr hc] at h
        exact Option.noConfusion h
      simp [lastIdxOf, h, hmem]
    | none =>
      have hnm : c ∉ xs := ih.mp h
      by_cases hx : x = c
      · subst hx
        simp [lastIdxOf, h]
      · simp [lastIdxOf, h, hx, hnm, Ne.symm hx]

/-- `lastIdxOf` returns `some d` exactly when the list splits as a length-`d`
prefix, the character, and a suffix free of that character. -/
theorem lastIdxOf_eq_some_iff (c : Char) (l : List Char) (d : Nat) :
    lastIdxOf c l = some d ↔
      ∃ l1 l2, l = l1 ++ c :: l2 ∧ l1.length = d ∧ c ∉ l2 := by
  induction l generalizing d with
  | nil =>
    simp only [lastIdxOf]
    constructor
    · intro h
      exact Option.noConfusion h
    · rintro ⟨l1, l2, h, -, -⟩
      exact absurd h (by simp)
  | cons x xs ih =>
    cases h : lastIdxOf c xs with
    | some i =>
      have hx : lastIdxOf c (x :: xs) = some (i + 1) := by simp [lastIdxOf, h]
      rw [hx]
      constructor
      · intro heq
        injection heq with heq
        obtain ⟨l1, l2, hl, hlen, hc2⟩ := (ih i).mp h
        exact ⟨x :: l1, l2, by simp [hl], by simp [hlen, heq], hc2⟩
      · rintro ⟨l1, l2, hl, hlen, hc2⟩
        cases l1 with
        | nil =>
          simp only [List.nil_append, List.cons.injEq] at hl
          obtain ⟨hxc, hxs⟩ := hl
          have hmem : c ∈ xs := by
            by_contra hc
            rw [(lastIdxOf_eq_none_iff c xs).mpr hc] at h
            exact Option.noConfusion h
          rw [hxs] at hmem
          exact absurd hmem hc2
        | cons y l1 =>
          simp only [List.cons_append, List.cons.injEq] at hl
          obtain ⟨hxy, hxs⟩ := hl
          have hxs' := (ih l1.length).mpr ⟨l1, l2, hxs, rfl, hc2⟩
          rw [h] at hxs'
          injection hxs' with hi
          simp only [List.length_cons] at hlen
          exact congrArg some (by omega)
    | none =>
      have hnm : c ∉ xs := (lastIdxOf_eq_none_iff c xs).mp h
      by_cases hx : x = c
      · subst hx
        have hL : lastIdxOf x (x :: xs) = some 0 := by simp [lastIdxOf, h]
        rw [hL]
        constructor
        · intro heq
          injection heq with heq
          exact ⟨[], xs, rfl, heq, hnm⟩
        · rintro ⟨l1, l2, hl, hlen, hc2⟩
          cases l1 with
          | nil =>
            simp only [List.length_nil] at hlen
            rw [← hlen]
          | cons y l1 =>
            simp only [List.cons_append, List.cons.injEq] at hl
            obtain ⟨hxy, hxs⟩ := hl
            have : x ∈ xs := by
              rw [hxs]
              exact List.mem_append_right _ (List.mem_cons_self _ _)
            exact absurd this hnm
      · have hL : lastIdxOf c (x :: xs) = none := by simp [lastIdxOf, h, hx]
        rw [hL]
        constructor
        · intro heq
          exact Option.noConfusion heq
        · rintro ⟨l1, l2, hl, hlen, hc2⟩
          cases l1 with
          | nil =>
            simp only [List.nil_append, List.cons.injEq] at hl
            exact absurd hl.1 hx
          | cons y l1 =>
            simp only [List.cons_append, List.cons.injEq] at hl
            obtain ⟨hxy, hxs⟩ := hl
            have : c ∈ xs := by
              rw [hxs]
              exact List.mem_append_right _ (List.mem_cons_self _ _)
            exact absurd this hnm

/-- Dropping leading dots from a dot-free list changes nothing. -/
theorem dropWhile_dot_eq_self {l : List Char} (h : '.' ∉ l) :
    l.dropWhile (· = '.') = l := by
  cases l with
  | nil => rfl
  | cons x xs =>
    have hx : x ≠ '.' := by
      intro he
      rw [he] at h
      exact h (List.mem_cons_self _ _)
    simp [List.dropWhile_cons, hx]

/-- The text after the last dot of `l1 ++ '.' :: l2` is `l2`, provided `l2`
is dot-free. -/
theorem afterLastDot_append (l1 l2 : List Char) (h : '.' ∉ l2) :
    afterLastDotL (l1 ++ '.' :: l2) = l2 := by
  have h1 : (l1 ++ '.' :: l2).reverse = l2.reverse ++ '.' :: l1.reverse := by simp
  have hall : ∀ a ∈ l2.reverse, (fun c => decide (c ≠ '.')) a = true := by
    intro a ha
    simp only [decide_eq_true_eq, ne_eq]
    rintro rfl
    rw [List.mem_reverse] at ha
    exact h ha
  unfold afterLastDotL
  rw [h1, List.takeWhile_append_of_pos hall]
  simp [List.takeWhile_cons]

/-- The text after the last dot never contains a dot. -/
theorem afterLastDot_no_dot (l : List Char) : '.' ∉ afterLastDotL l := by
  unfold afterLastDotL
  intro hmem
  rw [List.mem_reverse] at hmem
  have := List.mem_takeWhile_imp hmem
  simp at this

/-- C9: for a directory-entry name (which contains no `/`), the `extension`
field is the lowercased text after the name's last dot when the name has an
extension in `splitext`'s sense (a dot preceded by some non-dot character),
and null otherwise — so dotfile-style names get null and the reported field
never contains a dot. -/
theorem C9_extension_field (name : String) (hsep : '/' ∉ name.toList) :
    extField name =
      (if hasExtensionB name.toList then some ⟨pyLowerL (afterLastDotL name.toList)⟩
       else none) ∧
    '.' ∉ afterLastDotL name.toList := by
  refine ⟨?_, afterLastDot_no_dot _⟩
  have hsep2 : '/' ∉ name.data := hsep
  show extField name =
    (if hasExtensionB name.data then some ⟨pyLowerL (afterLastDotL name.data)⟩ else none)
  cases hdot : lastIdxOf '.' name.data with
  | none =>
    have hnd : '.' ∉ name.data := (lastIdxOf_eq_none_iff _ _).mp hdot
    have h1 : extField name = none := by
      simp [extField, splitextExtL, hdot]
    have h2 : hasExtensionB name.data = false := by
      simp only [hasExtensionB]
      rw [List.any_eq_false]
      intro x hx
      have hxl : x ∈ name.data := (List.dropWhile_sublist _).subset hx
      simp only [decide_eq_true_eq]
      rintro rfl
      exact hnd hxl
    rw [h1, h2]
    simp
  | some d =>
    obtain ⟨l1, l2, hl, hlen, hc2⟩ := (lastIdxOf_eq_some_iff '.' name.data d).mp hdot
    have hsep' : lastIdxOf '/' name.data = none := (lastIdxOf_eq_none_iff _ _).mpr hsep2
    have hdrop : name.data.drop d = '.' :: l2 := by
      rw [hl, List.drop_left' hlen]
    have htake : name.data.take d = l1 := by
      rw [hl, List.take_left' hlen]
    have hsplit : splitextExtL name.data =
        if l1.all (· = '.') then [] else '.' :: l2 := by
      simp only [splitextExtL, hdot, hsep']
      simp [htake, hdrop]
    have hafter : afterLastDotL name.data = l2 := by
      rw [hl]
      exact afterLastDot_append l1 l2 hc2
    by_cases hall : l1.all (· = '.') = true
    · have h1 : extField name = none := by
        simp [extField, hsplit, hall]
      have h2 : hasExtensionB name.data = false := by
        have hall' : ∀ a ∈ l1, (fun c => decide (c = '.')) a = true := by
          simpa [List.all_eq_true] using hall
        simp only [hasExtensionB, hl]
        rw [List.dropWhile_append_of_pos hall']
        rw [List.dropWhile_cons_of_pos (by simp)]
        rw [dropWhile_dot_eq_self hc2]
        rw [List.any_eq_false]
        intro x hx
        simp only [decide_eq_true_eq]
        rintro rfl
        exact hc2 hx
      rw [h1, h2]
      simp
    · have h1 : extField name = some ⟨pyLowerL (lstripDotsL ('.' :: l2))⟩ := by
        simp [extField, hsplit, hall]
      have hstrip : lstripDotsL ('.' :: l2) = l2 := by
        simp only [lstripDotsL]
        rw [List.dropWhile_cons_of_pos (by simp)]
        exact dropWhile_dot_eq_self hc2
      have h2 : hasExtensionB name.data = true := by
        simp only [hasExtensionB, hl]
        rw [List.dropWhile_append]
        have hne : (l1.dropWhile (· = '.')).isEmpty = false := by
          rw [List.isEmpty_eq_false]
          intro hnil
          apply hall
          rw [List.all_eq_true]
          intro x hx
          simp only [decide_eq_true_eq]
          by_contra hxd
          have := List.dropWhile_eq_nil_iff.mp hnil x hx
          simp only [decide_eq_true_eq] at this
          exact hxd this
        rw [hne]
        simp
      rw [h1, h2, hstrip, hafter]
      simp
  
/-- C9 witness: the name `Report.PDF` has extension `pdf`; its lowercased
dot-free shape is certified by the theorem. -/
theorem C9_extension_field_witness :
    ('/' ∉ ("Report.PDF" : String).toList) ∧
    (extField "Report.PDF" =
        (if hasExtensionB ("Report.PDF" : String).toList then
          some ⟨pyLowerL (afterLastDotL ("Report.PDF" : String).toList)⟩
        else none) ∧
      '.' ∉ afterLastDotL ("Report.PDF" : String).toList) :=
  ⟨by decide, C9_extension_field "Report.PDF" (by decide)⟩

/-- A `Content-Disposition` header is in the `end_headers` block exactly when
the URL-derived forced-download decision produced it. -/
theorem mem_end_headers_added_iff (sp v : String) :
    ("Content-Disposition", v) ∈ end_headers_added sp ↔ dispositionHeader sp = some v := by
  unfold end_headers_added
  cases h : dispositionHeader sp with
  | none => simp
  | some w => simp [eq_comm]

/-- The forced-download decision, characterised: a header value is produced
exactly when the query-stripped URL path's lowercased `splitext` extension is
one of the four PowerPoint extensions, and then the value names the last
segment of the still-percent-encoded query-stripped path, double quotes
escaped. -/
theorem dispositionHeader_eq_some_iff (sp v : String) :
    dispositionHeader sp = some v ↔
      (pyLower (splitextExt (stripQuery sp)) ∈ force_download_extensions ∧
        v = "attachment; filename=\"" ++ escapeQuotes (basename (stripQuery sp)) ++ "\"") := by
  simp only [dispositionHeader]
  by_cases hc :
      force_download_extensions.contains (pyLower (splitextExt (stripQuery sp))) = true
  · have hmem : pyLower (splitextExt (stripQuery sp)) ∈ force_download_extensions := by
      simpa [List.contains] using hc
    rw [if_pos hc]
    simp [hmem, eq_comm]
  · have hmem : pyLower (splitextExt (stripQuery sp)) ∉ force_download_extensions := by
      intro hm
      exact hc (by simpa [List.contains] using hm)
    rw [if_neg hc]
    simp [hmem]

/-- No dispatcher branch adds a `Content-Disposition` header of its own:
such a header is in the response exactly when it is in the `end_headers`
block. -/
theorem handleRequest_contentDisposition_iff (env : Env) (fs : Fs) (method selfPath v : String) :
    ("Content-Disposition", v) ∈ (handleRequest env fs method selfPath).headers ↔
      ("Content-Disposition", v) ∈ end_headers_added selfPath := by
  unfold handleRequest
  split
  · exact Iff.rfl
  · split
    · simp [mkError]
    · split
      · simp [mkError]
      · split
        · simp [mkError]
        · simp
      · simp

/-- C10 counterexample: the URL path `/.pptx` ends in `.pptx`
(case-insensitively, query-stripped), yet the response for it carries no
`Content-Disposition` header — `os.path.splitext` treats the leading dot of
the final component as part of the stem, so the claimed "ends in" trigger is
wrong. -/
theorem C10_url_disposition_counterexample :
    endsInForcedExt "/.pptx" = true ∧
    dispositionHeader "/.pptx" = none ∧
    ((handleRequest env0 fsEmpty "GET" "/.pptx").headers.map Prod.fst).contains
        "Content-Disposition" = false := by decide

/-- C10 amended: the forced-download decision is made solely from the
request URL — for any environment, filesystem, method and status, the
response carries `("Content-Disposition", v)` iff the query-stripped URL
path's lowercased `splitext` extension is one of `.ppsx/.pptx/.ppt/.pps`
(so a final component whose only dot is its first character does not
trigger it) and `v` is `attachment; filename="<last segment of the
still-percent-encoded query-stripped path, double quotes escaped>"`. -/
theorem C10_url_disposition_amended (env : Env) (fs : Fs) (method selfPath v : String) :
    ("Content-Disposition", v) ∈ (handleRequest env fs method selfPath).headers ↔
      (pyLower (splitextExt (stripQuery selfPath)) ∈ force_download_extensions ∧
        v = "attachment; filename=\"" ++ escapeQuotes (basename (stripQuery selfPath)) ++ "\"") :=
  (handleRequest_contentDisposition_iff env fs method selfPath v).trans
    ((mem_end_headers_added_iff selfPath v).trans
      (dispositionHeader_eq_some_iff selfPath v))

end DirServer
